import Mathlib

/-!
Verification of the Zoho OAuth token lifecycle manager
(`src/token_manager.py`, class `ZohoTokenManager`).

Shallow embedding conventions:
  * Python dicts holding the JSON token record become association lists
    `TokenData := List (String × JValue)` with Python dict semantics
    (`get`, `in`, item assignment updating in place / appending).
  * JSON values occurring in token records are strings and integers
    (`JValue`); wall-clock time (`time.time()`) is modelled as an `Int`
    number of seconds.
  * The durable store file `.tokens.json` is a `StoreFile` (absent, or
    holding the raw text); `json.dump(..., indent=2)` / `json.load` are
    modelled character-for-character by `jsonSerialize` / `jsonParse`
    for records whose strings are printable ASCII.
  * The network is an input: each operation that POSTs to the token
    endpoint receives the server's answer as an `HttpResult`; a write
    to the store receives a `writeOk` flag (False models `IOError`).
  * Python exceptions become the `TMError` sum; the source raises every
    managed failure as `RuntimeError` (auth-required, missing refresh
    token, save failure), while `httpx` transport/status errors and
    `KeyError`/`TypeError` are not `RuntimeError`s — `isRuntimeError`
    records that classification, which `is_authenticated`'s
    `except RuntimeError` clause depends on.
  * Each operation returns the mutated manager state and store next to
    its `Except` result, because the source mutates `self.token_data`
    before a save failure is raised.
-/

/-- A JSON value as it occurs in the token record: a string or an
integer (wall-clock times are modelled as integer seconds). -/
inductive JValue where
  | str (s : String)
  | num (n : Int)
deriving DecidableEq, Repr

/-- The in-memory token record: a Python dict from field names to
values, modelled as an association list in insertion order. -/
abbrev TokenData := List (String × JValue)

/-- `d.get(key)` / `d[key]` lookup: first binding of `key`. -/
def dictGet? : TokenData → String → Option JValue
  | [], _ => none
  | (k, v) :: rest, key => if k = key then some v else dictGet? rest key

/-- `key in d`. -/
def dictContains (d : TokenData) (key : String) : Bool :=
  (dictGet? d key).isSome

/-- `d.get(key, dflt)`. -/
def dictGetD (d : TokenData) (key : String) (dflt : JValue) : JValue :=
  (dictGet? d key).getD dflt

/-- `d[key] = v`: update the existing binding in place, else append. -/
def dictSet : TokenData → String → JValue → TokenData
  | [], key, v => [(key, v)]
  | (k, w) :: rest, key, v =>
      if k = key then (k, v) :: rest else (k, w) :: dictSet rest key v

/-- The opening brace character. -/
def lbrace : Char := Char.ofNat 123

/-- The closing brace character. -/
def rbrace : Char := Char.ofNat 125

/-- Decimal digit `d` (0 ≤ d ≤ 9) as a character. -/
def digitChar (d : Nat) : Char := Char.ofNat (48 + d)

/-- Decimal representation of a natural number, most significant digit
first (matching Python's rendering of a non-negative `int`). -/
def natToChars (n : Nat) : List Char :=
  if _h : n < 10 then [digitChar n]
  else natToChars (n / 10) ++ [digitChar (n % 10)]
termination_by n
decreasing_by
  exact Nat.div_lt_self (by omega) (by omega)

/-- Python's rendering of an `int`, as emitted by `json.dump`. -/
def serNumChars (n : Int) : List Char :=
  if n < 0 then '-' :: natToChars n.natAbs else natToChars n.toNat

/-- JSON string escaping as performed by `json.dump` on printable
ASCII text: `"` and `\` get a backslash, all other printable ASCII
characters are emitted verbatim.  (Control and non-ASCII characters,
which Python would emit as escape sequences, are outside the modelled
domain; see `printableStr`.) -/
def escChar (c : Char) : List Char :=
  if c = '"' then ['\\', '"']
  else if c = '\\' then ['\\', '\\']
  else [c]

/-- Escape every character of a string body. -/
def escList : List Char → List Char
  | [] => []
  | c :: rest => escChar c ++ escList rest

/-- A serialized JSON string literal, quotes included. -/
def serStr (s : String) : List Char :=
  '"' :: escList s.data ++ ['"']

/-- A serialized JSON value. -/
def serVal : JValue → List Char
  | .str s => serStr s
  | .num n => serNumChars n

/-- One `"key": value` member, as `json.dump` emits it. -/
def serMember (k : String) (v : JValue) : List Char :=
  serStr k ++ ':' :: ' ' :: serVal v

/-- The members of an object under `indent=2`: each member on its own
line behind two spaces, members separated by a comma. -/
def serMembers : TokenData → List Char
  | [] => []
  | [(k, v)] => ' ' :: ' ' :: serMember k v
  | (k, v) :: rest =>
      (' ' :: ' ' :: serMember k v) ++ ',' :: '\n' :: serMembers rest

/-- A whole serialized object: `json.dump(d, f, indent=2)` output. -/
def serObjChars (d : TokenData) : List Char :=
  match d with
  | [] => [lbrace, rbrace]
  | _ => lbrace :: '\n' :: serMembers d ++ ['\n', rbrace]

/-- `json.dump(d, f, indent=2)`: the exact text written to the store
file for a flat record of strings and integers. -/
def jsonSerialize (d : TokenData) : String :=
  String.mk (serObjChars d)

/-- JSON insignificant whitespace. -/
def isWs (c : Char) : Bool :=
  c = ' ' || c = '\n' || c = '\t' || c = '\r'

/-- Drop leading insignificant whitespace. -/
def skipWs : List Char → List Char
  | [] => []
  | c :: rest => if isWs c then skipWs rest else c :: rest

/-- Decode one escape sequence character (the modelled subset). -/
def unescChar (e : Char) : Option Char :=
  if e = '"' then some '"'
  else if e = '\\' then some '\\'
  else if e = '/' then some '/'
  else none

/-- Parse a JSON string body after the opening quote, up to and
including the closing quote; returns the decoded characters and the
remaining input. -/
def parseStrBody : List Char → Option (List Char × List Char)
  | [] => none
  | c :: rest =>
    if c = '"' then some ([], rest)
    else if c = '\\' then
      match rest with
      | [] => none
      | e :: rest2 =>
        match unescChar e with
        | none => none
        | some c2 =>
          match parseStrBody rest2 with
          | some (s, r) => some (c2 :: s, r)
          | none => none
    else
      match parseStrBody rest with
      | some (s, r) => some (c :: s, r)
      | none => none

/-- Consume a maximal run of decimal digits, folding them onto `acc`. -/
def parseDigits : List Char → Nat → Nat × List Char
  | [], acc => (acc, [])
  | c :: rest, acc =>
    if c.isDigit then parseDigits rest (10 * acc + (c.toNat - 48))
    else (acc, c :: rest)

/-- Parse a JSON value (string literal or integer). -/
def parseVal : List Char → Option (JValue × List Char)
  | [] => none
  | c :: rest =>
    if c = '"' then
      match parseStrBody rest with
      | some (cs, r) => some (.str (String.mk cs), r)
      | none => none
    else if c = '-' then
      match rest with
      | [] => none
      | c2 :: _ =>
        if c2.isDigit then
          let p := parseDigits rest 0
          some (.num (-(p.1 : Int)), p.2)
        else none
    else if c.isDigit then
      let p := parseDigits (c :: rest) 0
      some (.num (p.1 : Int), p.2)
    else none

/-- Parse the members of an object, positioned (whitespace already
skipped) at the opening quote of a key; `fuel` bounds the number of
members and only decreases across members. -/
def parseMembers : Nat → List Char → Option (TokenData × List Char)
  | 0, _ => none
  | fuel + 1, l =>
    match l with
    | [] => none
    | c :: rest =>
      if c = '"' then
        match parseStrBody rest with
        | none => none
        | some (kcs, r1) =>
          match skipWs r1 with
          | [] => none
          | c2 :: r2 =>
            if c2 = ':' then
              match parseVal (skipWs r2) with
              | none => none
              | some (v, r3) =>
                match skipWs r3 with
                | [] => none
                | c3 :: r4 =>
                  if c3 = ',' then
                    match parseMembers fuel (skipWs r4) with
                    | some (tl, r5) => some ((String.mk kcs, v) :: tl, r5)
                    | none => none
                  else if c3 = rbrace then some ([(String.mk kcs, v)], r4)
                  else none
            else none
      else none

/-- Parse a JSON object from the head of the input. -/
def parseObj (l : List Char) : Option (TokenData × List Char) :=
  match skipWs l with
  | [] => none
  | c :: rest =>
    if c = lbrace then
      match skipWs rest with
      | [] => none
      | c2 :: r2 =>
        if c2 = rbrace then some ([], r2)
        else parseMembers (rest.length + 1) (c2 :: r2)
    else none

/-- `json.load` on the store file's text: a single JSON object
followed only by whitespace; `none` models `json.JSONDecodeError`. -/
def jsonParse (s : String) : Option TokenData :=
  match parseObj s.data with
  | some (d, rest) => if (skipWs rest).isEmpty then some d else none
  | none => none

/-- A character inside the modelled (printable ASCII) domain of the
serializer — the domain on which `jsonSerialize` agrees with
`json.dump` character for character. -/
def printableStr (s : String) : Bool :=
  s.data.all fun c => 32 ≤ c.toNat && c.toNat < 127

/-- A value inside the modelled serializer domain. -/
def printableVal : JValue → Bool
  | .str s => printableStr s
  | .num _ => true

/-- A record inside the modelled serializer domain. -/
def printableData (d : TokenData) : Bool :=
  d.all fun kv => printableStr kv.1 && printableVal kv.2

/-- The constructor configuration of `ZohoTokenManager` (`__init__`),
with `accounts_server` already stripped of trailing slashes. -/
structure ClientCredentials where
  client_id : String
  client_secret : String
  redirect_uri : String
  scope : String
  accounts_server : String
deriving DecidableEq, Repr

/-- `s.rstrip("/")`. -/
def rstripSlash (s : String) : String :=
  String.mk ((s.data.reverse.dropWhile (fun c => c = '/')).reverse)

/-- The characters `urllib.parse.quote_plus` leaves unescaped
(letters, digits, and the four punctuation characters of
`ALWAYS_SAFE` restricted to its default safe set). -/
def quoteSafe (c : Char) : Bool :=
  c.isAlpha || c.isDigit || c = '_' || c = '.' || c = '-' || c = '~'

/-- Uppercase hexadecimal digit. -/
def hexDigit (n : Nat) : Char :=
  if n < 10 then digitChar n else Char.ofNat (55 + n)

/-- The UTF-8 bytes of a character. -/
def utf8Bytes (c : Char) : List Nat :=
  let n := c.toNat
  if n < 128 then [n]
  else if n < 2048 then [192 + n / 64, 128 + n % 64]
  else if n < 65536 then [224 + n / 4096, 128 + (n / 64) % 64, 128 + n % 64]
  else [240 + n / 262144, 128 + (n / 4096) % 64, 128 + (n / 64) % 64,
        128 + n % 64]

/-- `%XX` percent-encoding of one byte, uppercase hex. -/
def percentByte (b : Nat) : String :=
  "%" ++ String.singleton (hexDigit (b / 16)) ++
    String.singleton (hexDigit (b % 16))

/-- `urllib.parse.quote_plus` on one string. -/
def quotePlus (s : String) : String :=
  String.join (s.data.map fun c =>
    if quoteSafe c then String.singleton c
    else if c = ' ' then "+"
    else String.join ((utf8Bytes c).map percentByte))

/-- `urllib.parse.urlencode` over an ordered list of pairs. -/
def urlencodePairs (ps : List (String × String)) : String :=
  String.intercalate "&" (ps.map fun p => quotePlus p.1 ++ "=" ++ quotePlus p.2)

/-- `get_authorization_url`: the browser consent URL, built from the
stored configuration in the source's parameter order. -/
def get_authorization_url (creds : ClientCredentials) : String :=
  creds.accounts_server ++ "/oauth/v2/auth?" ++
    urlencodePairs
      [("scope", creds.scope),
       ("client_id", creds.client_id),
       ("response_type", "code"),
       ("redirect_uri", creds.redirect_uri),
       ("access_type", "offline")]

/-- `TOKEN_REFRESH_BUFFER_SECONDS`: refresh 5 minutes before expiry. -/
def TOKEN_REFRESH_BUFFER_SECONDS : Int := 300

/-- The failures the manager's operations can produce.  The first
three are raised in the source as `RuntimeError`; `httpError` stands
for the `httpx` transport/status exceptions (and JSON decode errors of
the response body), and `keyError` / `typeError` for the Python
built-in exceptions of the same names — none of which are
`RuntimeError`s. -/
inductive TMError where
  | authRequired (msg : String)
  | missingRefresh (msg : String)
  | saveFailed
  | httpError
  | keyError (key : String)
  | typeError
deriving DecidableEq, Repr

/-- Whether the Python exception behind this failure is (a subclass
of) `RuntimeError` — the class caught by `is_authenticated`. -/
def isRuntimeError : TMError → Bool
  | .authRequired _ => true
  | .missingRefresh _ => true
  | .saveFailed => true
  | .httpError => false
  | .keyError _ => false
  | .typeError => false

/-- The durable store: the file `.tokens.json` — absent, or holding
some raw text. -/
inductive StoreFile where
  | absent
  | content (s : String)
deriving DecidableEq, Repr

/-- A token-endpoint POST outcome: a 2xx response with a parsed JSON
body, or any transport/status/JSON failure (`httpx` exception). -/
inductive HttpResult where
  | ok (body : TokenData)
  | err
deriving DecidableEq, Repr

/-- The mutable state of a `ZohoTokenManager` instance: its
configuration and `self.token_data`. -/
structure ManagerState where
  creds : ClientCredentials
  token_data : Option TokenData
deriving DecidableEq, Repr

/-- `_load_tokens`: read the store file if it exists; a parse failure
is a non-fatal warning leaving `token_data = None`. -/
def loadTokens (store : StoreFile) : Option TokenData :=
  match store with
  | .absent => none
  | .content s => jsonParse s

/-- `__init__`: store the credentials (with `accounts_server` stripped
of trailing slashes) and load the token record from the store. -/
def mkManager (client_id client_secret redirect_uri scope
    accounts_server : String) (store : StoreFile) : ManagerState :=
  { creds :=
      { client_id := client_id
        client_secret := client_secret
        redirect_uri := redirect_uri
        scope := scope
        accounts_server := rstripSlash accounts_server }
    token_data := loadTokens store }

/-- `_save_tokens`: assign `self.token_data` first, then attempt the
file write; a failed write raises `RuntimeError` (modelled by
`writeOk = false` / `saveFailed`) with the in-memory record already
replaced.  The `.ok` payload is the record, since every caller
returns the record it just saved. -/
def saveTokens (st : ManagerState) (store : StoreFile) (td : TokenData)
    (writeOk : Bool) : ManagerState × StoreFile × Except TMError TokenData :=
  let st2 := { st with token_data := some td }
  if writeOk then (st2, .content (jsonSerialize td), .ok td)
  else (st2, store, .error .saveFailed)

/-- The single-quote character (ASCII 39), used inside the source's
instruction text. -/
def squote : String := String.singleton (Char.ofNat 39)

/-- The fixed tail of the `RuntimeError` message raised when no access
token is available (steps 2–4 of the instructions). -/
def authInstructions : String :=
  "\n2. Authorize the application" ++
  "\n3. Copy the " ++ squote ++ "code" ++ squote ++
  " parameter from the redirect URL" ++
  "\n4. Call exchange_code_for_tokens(code)"

/-- The full `RuntimeError` message of `get_valid_access_token` when
no usable access token is on record. -/
def authRequiredMessage (creds : ClientCredentials) : String :=
  "No access token available. Please run initial OAuth flow:\n1. Visit: " ++
    get_authorization_url creds ++ authInstructions

/-- The `RuntimeError` message of `refresh_access_token` when no
refresh token is on record. -/
def missingRefreshMessage : String :=
  "No refresh token available. Please run initial OAuth flow."

/-- `exchange_code_for_tokens`: POST the authorization code; on a 2xx
response stamp `expires_at = time.time() + resp.get("expires_in", 3600)`
and save.  (`_authorization_code` only feeds the request body.)  A
non-numeric `expires_in` would make Python's `+` raise `TypeError`. -/
def exchange_code_for_tokens (st : ManagerState) (store : StoreFile)
    (_authorization_code : String) (now : Int) (resp : HttpResult)
    (writeOk : Bool) : ManagerState × StoreFile × Except TMError TokenData :=
  match resp with
  | .err => (st, store, .error .httpError)
  | .ok body =>
    match dictGetD body "expires_in" (.num 3600) with
    | .str _ => (st, store, .error .typeError)
    | .num e => saveTokens st store (dictSet body "expires_at" (.num (now + e))) writeOk

/-- `refresh_access_token`: require a record containing the key
`refresh_token` (a falsy — `None` or empty — `token_data` also
fails), POST the refresh request, preserve the previous refresh token
when the response omits one, stamp `expires_at`, save, and return the
new record. -/
def refresh_access_token (st : ManagerState) (store : StoreFile) (now : Int)
    (resp : HttpResult) (writeOk : Bool) :
    ManagerState × StoreFile × Except TMError TokenData :=
  match st.token_data with
  | none => (st, store, .error (.missingRefresh missingRefreshMessage))
  | some d =>
    if d.isEmpty || !(dictContains d "refresh_token") then
      (st, store, .error (.missingRefresh missingRefreshMessage))
    else
      match resp with
      | .err => (st, store, .error .httpError)
      | .ok body =>
        let merged : Except TMError TokenData :=
          if dictContains body "refresh_token" then .ok body
          else
            match dictGet? d "refresh_token" with
            | some rt => .ok (dictSet body "refresh_token" rt)
            | none => .error (.keyError "refresh_token")
        match merged with
        | .error e => (st, store, .error e)
        | .ok body2 =>
          match dictGetD body2 "expires_in" (.num 3600) with
          | .str _ => (st, store, .error .typeError)
          | .num e =>
              saveTokens st store (dictSet body2 "expires_at" (.num (now + e))) writeOk

/-- `get_valid_access_token`: fail with the auth-required
`RuntimeError` when no record with an `access_token` key is present
(Python falsiness: `None` or an empty dict); otherwise compare `now`
against `expires_at - TOKEN_REFRESH_BUFFER_SECONDS` (with
`expires_at` defaulting to 0), refresh synchronously when stale, and
return `self.token_data["access_token"]` from the current record. -/
def get_valid_access_token (st : ManagerState) (store : StoreFile) (now : Int)
    (resp : HttpResult) (writeOk : Bool) :
    ManagerState × StoreFile × Except TMError JValue :=
  match st.token_data with
  | none => (st, store, .error (.authRequired (authRequiredMessage st.creds)))
  | some d =>
    if d.isEmpty || !(dictContains d "access_token") then
      (st, store, .error (.authRequired (authRequiredMessage st.creds)))
    else
      match dictGetD d "expires_at" (.num 0) with
      | .str _ => (st, store, .error .typeError)
      | .num expires_at =>
        if now ≥ expires_at - TOKEN_REFRESH_BUFFER_SECONDS then
          match refresh_access_token st store now resp writeOk with
          | (st2, store2, .error e) => (st2, store2, .error e)
          | (st2, store2, .ok _) =>
            match st2.token_data with
            | none => (st2, store2, .error (.keyError "access_token"))
            | some d2 =>
              match dictGet? d2 "access_token" with
              | none => (st2, store2, .error (.keyError "access_token"))
              | some v => (st2, store2, .ok v)
        else
          match dictGet? d "access_token" with
          | none => (st, store, .error (.keyError "access_token"))
          | some v => (st, store, .ok v)

/-- `is_authenticated`: call `get_valid_access_token`; `except
RuntimeError: return False` — any `RuntimeError`-class failure becomes
`False`, every other exception propagates. -/
def is_authenticated (st : ManagerState) (store : StoreFile) (now : Int)
    (resp : HttpResult) (writeOk : Bool) :
    ManagerState × StoreFile × Except TMError Bool :=
  match get_valid_access_token st store now resp writeOk with
  | (st2, store2, .ok _) => (st2, store2, .ok true)
  | (st2, store2, .error e) =>
    if isRuntimeError e then (st2, store2, .ok false)
    else (st2, store2, .error e)

/-- Concrete example credentials used by the witnesses and
counterexamples below. -/
def demoCreds : ClientCredentials :=
  { client_id := "abc"
    client_secret := "xyz"
    redirect_uri := "http://localhost:8080/oauth/callback"
    scope := "ZohoCRM.modules.ALL"
    accounts_server := "https://accounts.zoho.com" }

theorem dictGet?_dictSet_self (d : TokenData) (k : String) (v : JValue) :
    dictGet? (dictSet d k v) k = some v := by
  induction d with
  | nil => simp [dictSet, dictGet?]
  | cons hd tl ih =>
    obtain ⟨k0, v0⟩ := hd
    by_cases h : k0 = k
    · simp [dictSet, dictGet?, h]
    · simp [dictSet, dictGet?, h, ih]

theorem dictGet?_dictSet_ne (d : TokenData) (k k2 : String) (v : JValue)
    (h : k2 ≠ k) : dictGet? (dictSet d k v) k2 = dictGet? d k2 := by
  have h' : ¬ k = k2 := fun hk => h hk.symm
  induction d with
  | nil => simp [dictSet, dictGet?, h']
  | cons hd tl ih =>
    obtain ⟨k0, v0⟩ := hd
    by_cases h0 : k0 = k
    · subst h0
      simp [dictSet, dictGet?, h']
    · simp only [dictSet, h0, if_false, dictGet?]
      by_cases h2 : k0 = k2
      · simp [h2]
      · simp [h2, ih]

theorem dictContains_dictSet_ne (d : TokenData) (k k2 : String) (v : JValue)
    (h : k2 ≠ k) : dictContains (dictSet d k v) k2 = dictContains d k2 := by
  simp [dictContains, dictGet?_dictSet_ne d k k2 v h]

theorem dictGetD_dictSet_ne (d : TokenData) (k k2 : String) (v dflt : JValue)
    (h : k2 ≠ k) : dictGetD (dictSet d k v) k2 dflt = dictGetD d k2 dflt := by
  simp [dictGetD, dictGet?_dictSet_ne d k k2 v h]

theorem dictGetD_of_not_contains (d : TokenData) (k : String) (dflt : JValue)
    (h : dictContains d k = false) : dictGetD d k dflt = dflt := by
  cases hd : dictGet? d k with
  | none => simp [dictGetD, hd]
  | some v => simp [dictContains, hd] at h

theorem isEmpty_false_of_dictGet?_some (d : TokenData) (k : String) (v : JValue)
    (h : dictGet? d k = some v) : d.isEmpty = false := by
  cases d with
  | nil => simp [dictGet?] at h
  | cons hd tl => simp

theorem dictContains_true_of_dictGet?_some (d : TokenData) (k : String)
    (v : JValue) (h : dictGet? d k = some v) : dictContains d k = true := by
  simp [dictContains, h]

theorem dictSet_ne_nil (d : TokenData) (k : String) (v : JValue) :
    dictSet d k v ≠ [] := by
  cases d with
  | nil => simp [dictSet]
  | cons hd tl =>
    obtain ⟨k0, v0⟩ := hd
    by_cases h : k0 = k <;> simp [dictSet, h]

theorem printableData_dictSet (d : TokenData) (k : String) (v : JValue)
    (hd : printableData d = true) (hk : printableStr k = true)
    (hv : printableVal v = true) : printableData (dictSet d k v) = true := by
  induction d with
  | nil => simp [dictSet, printableData, hk, hv]
  | cons hd0 tl ih =>
    obtain ⟨k0, v0⟩ := hd0
    simp only [printableData, List.all_cons, Bool.and_eq_true] at hd
    by_cases h : k0 = k
    · simp [dictSet, h, printableData, hk, hv, hd.2]
    · have h2 := ih hd.2
      simp only [dictSet, h, if_false, printableData, List.all_cons,
        Bool.and_eq_true] at h2 ⊢
      exact ⟨⟨hd.1.1, hd.1.2⟩, h2⟩

theorem skipWs_not_ws (c : Char) (l : List Char) (h : isWs c = false) :
    skipWs (c :: l) = c :: l := by
  simp [skipWs, h]

theorem skipWs_ws (c : Char) (l : List Char) (h : isWs c = true) :
    skipWs (c :: l) = skipWs l := by
  simp [skipWs, h]

theorem parseStrBody_escList (cs rest : List Char) :
    parseStrBody (escList cs ++ '"' :: rest) = some (cs, rest) := by
  induction cs with
  | nil =>
    rw [escList, List.nil_append, parseStrBody.eq_def]
    simp
  | cons c tl ih =>
    by_cases h1 : c = '"'
    · subst h1
      rw [escList, escChar, if_pos rfl, List.cons_append, List.cons_append,
        parseStrBody.eq_def]
      simp [unescChar, ih]
    · by_cases h2 : c = '\\'
      · subst h2
        rw [escList, escChar, if_neg (by decide), if_pos rfl, List.cons_append,
          List.cons_append, parseStrBody.eq_def]
        simp [unescChar, ih]
      · rw [escList, escChar, if_neg h1, if_neg h2, List.singleton_append,
          parseStrBody.eq_def]
        simp [h1, h2, ih]

theorem isDigit_digitChar (d : Nat) (h : d < 10) :
    (digitChar d).isDigit = true := by
  interval_cases d <;> decide

theorem toNat_digitChar (d : Nat) (h : d < 10) :
    (digitChar d).toNat = 48 + d := by
  interval_cases d <;> decide

theorem natToChars_eq (n : Nat) : natToChars n =
    if n < 10 then [digitChar n]
    else natToChars (n / 10) ++ [digitChar (n % 10)] := by
  rw [natToChars]
  split <;> rfl

theorem natToChars_ne_nil (n : Nat) : natToChars n ≠ [] := by
  rw [natToChars_eq]
  split
  · simp
  · simp

theorem natToChars_all_digit (n : Nat) :
    ∀ c ∈ natToChars n, c.isDigit = true := by
  induction n using Nat.strong_induction_on with
  | _ n ih =>
    rw [natToChars_eq]
    by_cases h : n < 10
    · simp only [h, if_true, List.mem_singleton]
      rintro c rfl
      exact isDigit_digitChar n h
    · simp only [h, if_false, List.mem_append, List.mem_singleton]
      rintro c (hc | rfl)
      · exact ih (n / 10) (Nat.div_lt_self (by omega) (by omega)) c hc
      · exact isDigit_digitChar (n % 10) (Nat.mod_lt n (by omega))

theorem parseDigits_append_natToChars (n : Nat) :
    ∀ acc rest, parseDigits (natToChars n ++ rest) acc =
      parseDigits rest (acc * 10 ^ (natToChars n).length + n) := by
  induction n using Nat.strong_induction_on with
  | _ n ih =>
    intro acc rest
    rw [natToChars_eq]
    by_cases h : n < 10
    · have hd := isDigit_digitChar n h
      have ht := toNat_digitChar n h
      simp only [h, if_true, List.singleton_append, parseDigits, hd,
        List.length_singleton, pow_one]
      congr 1
      omega
    · have hq : n / 10 < n := Nat.div_lt_self (by omega) (by omega)
      have hd := isDigit_digitChar (n % 10) (Nat.mod_lt n (by omega))
      have ht := toNat_digitChar (n % 10) (Nat.mod_lt n (by omega))
      simp only [h, if_false, List.append_assoc, List.singleton_append]
      rw [ih (n / 10) hq]
      simp only [parseDigits, hd, if_true, ht, Nat.add_sub_cancel_left,
        List.length_append, List.length_singleton, pow_succ]
      congr 1
      have harr : 10 * (acc * 10 ^ (natToChars (n / 10)).length + n / 10)
            + n % 10
          = acc * (10 ^ (natToChars (n / 10)).length * 10)
            + (10 * (n / 10) + n % 10) := by ring
      have hdm : 10 * (n / 10) + n % 10 = n := Nat.div_add_mod n 10
      rw [harr, hdm]

theorem parseDigits_stop (l : List Char) (acc : Nat)
    (h : ∀ c t, l = c :: t → c.isDigit = false) :
    parseDigits l acc = (acc, l) := by
  cases l with
  | nil => simp [parseDigits]
  | cons c t => simp [parseDigits, h c t rfl]

theorem ne_quote_of_isDigit (c : Char) (h : c.isDigit = true) : ¬ c = '"' :=
  fun hc => absurd h (by subst hc; decide)

theorem ne_minus_of_isDigit (c : Char) (h : c.isDigit = true) : ¬ c = '-' :=
  fun hc => absurd h (by subst hc; decide)

theorem isWs_false_of_isDigit (c : Char) (h : c.isDigit = true) :
    isWs c = false := by
  by_cases h1 : c = ' '
  · exact absurd h (by subst h1; decide)
  · by_cases h2 : c = '\n'
    · exact absurd h (by subst h2; decide)
    · by_cases h3 : c = '\t'
      · exact absurd h (by subst h3; decide)
      · by_cases h4 : c = '\r'
        · exact absurd h (by subst h4; decide)
        · simp [isWs, h1, h2, h3, h4]

theorem natToChars_head_digit (n : Nat) :
    ∃ c cs, natToChars n = c :: cs ∧ c.isDigit = true := by
  cases hnc : natToChars n with
  | nil => exact absurd hnc (natToChars_ne_nil n)
  | cons c cs =>
    refine ⟨c, cs, rfl, ?_⟩
    exact natToChars_all_digit n c (by rw [hnc]; exact List.mem_cons_self c cs)

theorem skipWs_serVal (v : JValue) (t : List Char) :
    skipWs (serVal v ++ t) = serVal v ++ t := by
  cases v with
  | str s =>
    rw [serVal, serStr, List.cons_append]
    exact skipWs_not_ws _ _ (by decide)
  | num n =>
    rw [serVal, serNumChars]
    by_cases h : n < 0
    · rw [if_pos h, List.cons_append]
      exact skipWs_not_ws _ _ (by decide)
    · rw [if_neg h]
      obtain ⟨c, cs, hnc, hcd⟩ := natToChars_head_digit n.toNat
      rw [hnc, List.cons_append]
      exact skipWs_not_ws _ _ (isWs_false_of_isDigit c hcd)

theorem parseDigits_natToChars_full (m : Nat) (rest : List Char)
    (h : ∀ c t, rest = c :: t → c.isDigit = false) :
    parseDigits (natToChars m ++ rest) 0 = (m, rest) := by
  rw [parseDigits_append_natToChars, Nat.zero_mul, Nat.zero_add]
  exact parseDigits_stop rest m h

theorem string_mk_data (s : String) : String.mk s.data = s := rfl

theorem parseVal_serVal (v : JValue) (rest : List Char)
    (h : ∀ c t, rest = c :: t → c.isDigit = false) :
    parseVal (serVal v ++ rest) = some (v, rest) := by
  cases v with
  | str s =>
    rw [serVal, serStr, List.cons_append, parseVal.eq_def]
    simp only [if_pos rfl, List.append_assoc, List.cons_append, List.nil_append]
    rw [parseStrBody_escList]
    simp [string_mk_data]
  | num n =>
    by_cases hneg : n < 0
    · rw [serVal, serNumChars, if_pos hneg, List.cons_append, parseVal.eq_def]
      obtain ⟨c, cs, hnc, hcd⟩ := natToChars_head_digit n.natAbs
      rw [hnc, List.cons_append]
      simp only [if_neg (by decide : ¬ ('-' : Char) = '"'), if_pos rfl, hcd,
        if_true]
      rw [← List.cons_append, ← hnc, parseDigits_natToChars_full n.natAbs rest h]
      simp only [Option.some.injEq, Prod.mk.injEq, and_true, JValue.num.injEq]
      omega
    · rw [serVal, serNumChars, if_neg hneg, parseVal.eq_def]
      obtain ⟨c, cs, hnc, hcd⟩ := natToChars_head_digit n.toNat
      rw [hnc, List.cons_append]
      simp only [if_neg (ne_quote_of_isDigit c hcd),
        if_neg (ne_minus_of_isDigit c hcd), hcd, if_true]
      rw [← List.cons_append, ← hnc, parseDigits_natToChars_full n.toNat rest h]
      simp only [Option.some.injEq, Prod.mk.injEq, and_true, JValue.num.injEq]
      omega

theorem serMembers_length_ge (d : TokenData) :
    d.length ≤ (serMembers d).length := by
  induction d with
  | nil => simp [serMembers]
  | cons hd tl ih =>
    obtain ⟨k, v⟩ := hd
    cases tl with
    | nil => simp [serMembers]
    | cons t0 ts =>
      rw [show serMembers ((k, v) :: t0 :: ts)
          = (' ' :: ' ' :: serMember k v) ++ ',' :: '\n' :: serMembers (t0 :: ts)
        from rfl]
      simp only [List.length_cons, List.length_append] at ih ⊢
      omega

theorem parseMembers_serMembers (d : TokenData) :
    ∀ (fuel : Nat) (rest : List Char), d ≠ [] → d.length ≤ fuel →
    parseMembers fuel (skipWs (serMembers d ++ '\n' :: rbrace :: rest)) =
      some (d, rest) := by
  induction d with
  | nil => intro fuel rest hne; exact absurd rfl hne
  | cons hd tl ih =>
    obtain ⟨k, v⟩ := hd
    intro fuel rest _hne hlen
    cases fuel with
    | zero => simp at hlen
    | succ f =>
      cases tl with
      | nil =>
        rw [serMembers, serMember, serStr]
        simp only [List.cons_append, List.append_assoc, List.singleton_append,
          List.nil_append]
        rw [skipWs_ws _ _ (by decide), skipWs_ws _ _ (by decide),
          skipWs_not_ws _ _ (by decide)]
        rw [parseMembers.eq_def]
        simp only
        rw [if_pos trivial]
        rw [parseStrBody_escList]
        simp only
        rw [skipWs_not_ws _ _ (by decide)]
        simp only
        rw [if_pos trivial]
        rw [skipWs_ws _ _ (by decide), skipWs_serVal,
          parseVal_serVal v _ (fun c t hct => by cases hct; decide)]
        simp only
        rw [skipWs_ws _ _ (by decide), skipWs_not_ws _ _ (by decide)]
        simp only
        rw [if_neg (by decide : ¬ rbrace = ','), if_pos trivial]
      | cons t0 ts =>
        rw [show serMembers ((k, v) :: t0 :: ts)
            = (' ' :: ' ' :: serMember k v) ++ ',' :: '\n' :: serMembers (t0 :: ts)
          from rfl, serMember, serStr]
        simp only [List.cons_append, List.append_assoc, List.singleton_append,
          List.nil_append]
        rw [skipWs_ws _ _ (by decide), skipWs_ws _ _ (by decide),
          skipWs_not_ws _ _ (by decide)]
        rw [parseMembers.eq_def]
        simp only
        rw [if_pos trivial]
        rw [parseStrBody_escList]
        simp only
        rw [skipWs_not_ws _ _ (by decide)]
        simp only
        rw [if_pos trivial]
        rw [skipWs_ws _ _ (by decide), skipWs_serVal,
          parseVal_serVal v _ (fun c t hct => by cases hct; decide)]
        simp only
        rw [skipWs_not_ws _ _ (by decide)]
        simp only
        rw [if_pos trivial]
        rw [skipWs_ws _ _ (by decide)]
        rw [ih f rest (by simp) (by simp only [List.length_cons] at hlen ⊢; omega)]

theorem skipWs_serMembers_head (d : TokenData) (t : List Char) (h : d ≠ []) :
    ∃ Y, skipWs (serMembers d ++ t) = '"' :: Y := by
  cases d with
  | nil => exact absurd rfl h
  | cons hd tl =>
    obtain ⟨k, v⟩ := hd
    cases tl with
    | nil =>
      rw [serMembers, serMember, serStr]
      simp only [List.cons_append, List.append_assoc, List.singleton_append,
        List.nil_append]
      rw [skipWs_ws _ _ (by decide), skipWs_ws _ _ (by decide),
        skipWs_not_ws _ _ (by decide)]
      exact ⟨_, rfl⟩
    | cons t0 ts =>
      rw [show serMembers ((k, v) :: t0 :: ts)
          = (' ' :: ' ' :: serMember k v) ++ ',' :: '\n' :: serMembers (t0 :: ts)
        from rfl, serMember, serStr]
      simp only [List.cons_append, List.append_assoc, List.singleton_append,
        List.nil_append]
      rw [skipWs_ws _ _ (by decide), skipWs_ws _ _ (by decide),
        skipWs_not_ws _ _ (by decide)]
      exact ⟨_, rfl⟩

theorem parseObj_serObjChars (d : TokenData) :
    parseObj (serObjChars d) = some (d, []) := by
  cases d with
  | nil => rfl
  | cons hd tl =>
    rw [show serObjChars (hd :: tl)
        = lbrace :: '\n' :: serMembers (hd :: tl) ++ ['\n', rbrace] from rfl]
    rw [parseObj]
    simp only [List.cons_append]
    rw [skipWs_not_ws _ _ (by decide)]
    simp only
    rw [if_pos trivial]
    rw [skipWs_ws _ _ (by decide)]
    obtain ⟨Y, hY⟩ := skipWs_serMembers_head (hd :: tl) ['\n', rbrace] (by simp)
    rw [hY]
    simp only
    rw [if_neg (by decide : ¬ ('"' : Char) = rbrace)]
    have hb := serMembers_length_ge (hd :: tl)
    have hp := parseMembers_serMembers (hd :: tl)
      (('\n' :: (serMembers (hd :: tl) ++ ['\n', rbrace])).length + 1) []
      (by simp)
      (by simp only [List.length_cons, List.length_append] at hb ⊢; omega)
    rw [hY] at hp
    exact hp

theorem jsonParse_jsonSerialize (d : TokenData) :
    jsonParse (jsonSerialize d) = some d := by
  rw [jsonSerialize, jsonParse]
  rw [show (String.mk (serObjChars d)).data = serObjChars d from rfl]
  rw [parseObj_serObjChars]
  simp [skipWs]

theorem isEmpty_false_of_dictContains (d : TokenData) (k : String)
    (h : dictContains d k = true) : d.isEmpty = false := by
  unfold dictContains at h
  obtain ⟨v, hv⟩ := Option.isSome_iff_exists.mp h
  exact isEmpty_false_of_dictGet?_some d k v hv

theorem exchange_ok_eq (st : ManagerState) (store : StoreFile) (code : String)
    (now : Int) (body : TokenData) (writeOk : Bool) (e : Int)
    (he : dictGetD body "expires_in" (.num 3600) = .num e) :
    exchange_code_for_tokens st store code now (.ok body) writeOk =
      saveTokens st store (dictSet body "expires_at" (.num (now + e))) writeOk := by
  unfold exchange_code_for_tokens
  simp only
  rw [he]

theorem refresh_ok_eq (st : ManagerState) (store : StoreFile)
    (now : Int) (body : TokenData) (writeOk : Bool) (d : TokenData)
    (rt : JValue) (e : Int)
    (hd : st.token_data = some d)
    (hrt : dictGet? d "refresh_token" = some rt)
    (he : dictGetD (if dictContains body "refresh_token" then body
        else dictSet body "refresh_token" rt) "expires_in" (.num 3600)
      = .num e) :
    refresh_access_token st store now (.ok body) writeOk =
      saveTokens st store
        (dictSet (if dictContains body "refresh_token" then body
          else dictSet body "refresh_token" rt) "expires_at" (.num (now + e)))
        writeOk := by
  unfold refresh_access_token
  rw [hd]
  simp only
  have hne := isEmpty_false_of_dictGet?_some d _ _ hrt
  have hc := dictContains_true_of_dictGet?_some d _ _ hrt
  simp only [hne, hc, Bool.not_true, Bool.or_false, Bool.false_or,
    Bool.false_eq_true, if_false]
  by_cases hb : dictContains body "refresh_token"
  · simp only [hb, if_true] at he ⊢
    rw [he]
  · simp only [hb, Bool.false_eq_true, if_false] at he ⊢
    rw [hrt]
    simp only
    rw [he]

theorem refresh_err_eq (st : ManagerState) (store : StoreFile)
    (now : Int) (writeOk : Bool) (d : TokenData) (rt : JValue)
    (hd : st.token_data = some d)
    (hrt : dictGet? d "refresh_token" = some rt) :
    refresh_access_token st store now .err writeOk =
      (st, store, .error .httpError) := by
  unfold refresh_access_token
  rw [hd]
  simp only
  have hne := isEmpty_false_of_dictGet?_some d _ _ hrt
  have hc := dictContains_true_of_dictGet?_some d _ _ hrt
  simp only [hne, hc, Bool.not_true, Bool.or_false, Bool.false_or,
    Bool.false_eq_true, if_false]

theorem get_valid_fresh_eq (st : ManagerState) (store : StoreFile)
    (now : Int) (resp : HttpResult) (writeOk : Bool) (d : TokenData)
    (ea : Int) (v : JValue)
    (hd : st.token_data = some d)
    (hak : dictGet? d "access_token" = some v)
    (hea : dictGetD d "expires_at" (.num 0) = .num ea)
    (hfresh : ¬ now ≥ ea - TOKEN_REFRESH_BUFFER_SECONDS) :
    get_valid_access_token st store now resp writeOk = (st, store, .ok v) := by
  unfold get_valid_access_token
  rw [hd]
  simp only
  have hne := isEmpty_false_of_dictGet?_some d _ _ hak
  have hc := dictContains_true_of_dictGet?_some d _ _ hak
  simp only [hne, hc, Bool.not_true, Bool.or_false, Bool.false_or,
    Bool.false_eq_true, if_false]
  rw [hea]
  simp only [hfresh, if_false]
  rw [hak]

theorem get_valid_stale_eq (st : ManagerState) (store : StoreFile)
    (now : Int) (resp : HttpResult) (writeOk : Bool) (d : TokenData)
    (ea : Int)
    (hd : st.token_data = some d)
    (hak : dictContains d "access_token" = true)
    (hea : dictGetD d "expires_at" (.num 0) = .num ea)
    (hstale : now ≥ ea - TOKEN_REFRESH_BUFFER_SECONDS) :
    get_valid_access_token st store now resp writeOk =
      match refresh_access_token st store now resp writeOk with
      | (st2, store2, .error e) => (st2, store2, .error e)
      | (st2, store2, .ok _) =>
        match st2.token_data with
        | none => (st2, store2, .error (.keyError "access_token"))
        | some d2 =>
          match dictGet? d2 "access_token" with
          | none => (st2, store2, .error (.keyError "access_token"))
          | some v => (st2, store2, .ok v) := by
  unfold get_valid_access_token
  rw [hd]
  simp only
  have hne := isEmpty_false_of_dictContains d _ hak
  simp only [hne, hak, Bool.not_true, Bool.or_false, Bool.false_or,
    Bool.false_eq_true, if_false]
  rw [hea]
  simp only [hstale, if_true]

/-- Claim C1, counterexample: starting from a stale record
(`expires_at = 0`) at `now = 1000`, with the refresh response
advertising `expires_in = 100`, `get_valid_access_token` succeeds and
returns the new token, but the recorded `expires_at` is `1100`, so
only `100 < 300 = TOKEN_REFRESH_BUFFER_SECONDS` seconds of recorded
validity remain at the moment of return — the claimed freshness
guarantee fails for refresh responses granting under 300 seconds. -/
theorem c1_counterexample :
    (get_valid_access_token
      { creds := demoCreds
        token_data := some [("access_token", .str "A1"),
          ("refresh_token", .str "R1"), ("expires_at", .num 0)] }
      .absent 1000
      (.ok [("access_token", .str "A2"), ("expires_in", .num 100)])
      true).2.2 = .ok (.str "A2")
    ∧ (get_valid_access_token
        { creds := demoCreds
          token_data := some [("access_token", .str "A1"),
            ("refresh_token", .str "R1"), ("expires_at", .num 0)] }
        .absent 1000
        (.ok [("access_token", .str "A2"), ("expires_in", .num 100)])
        true).1.token_data
      = some [("access_token", .str "A2"), ("expires_in", .num 100),
          ("refresh_token", .str "R1"), ("expires_at", .num 1100)]
    ∧ ¬ ((1100 : Int) - 1000 ≥ TOKEN_REFRESH_BUFFER_SECONDS) :=
  ⟨rfl, rfl, by decide⟩

/-- Claim C1 (amended): a successful `get_valid_access_token` call
returns a token whose recorded `expires_at` satisfies
`expires_at - now ≥ TOKEN_REFRESH_BUFFER_SECONDS` at the moment of
return, provided that, when the call performs a refresh, the refresh
response's effective `expires_in` (3600 when the field is omitted) is
at least the buffer; the cached branch holds unconditionally because
the code refreshes whenever `now ≥ expires_at - 300`.  (The original
claim, without the proviso on the refresh response, fails: see the
counterexample.) -/
theorem c1_freshness_amended (st : ManagerState) (store : StoreFile)
    (now ea : Int) (resp : HttpResult) (writeOk : Bool) (d : TokenData)
    (hd : st.token_data = some d)
    (hea : dictGetD d "expires_at" (.num 0) = .num ea) :
    (¬ now ≥ ea - TOKEN_REFRESH_BUFFER_SECONDS →
      ∀ v, dictGet? d "access_token" = some v →
      get_valid_access_token st store now resp writeOk = (st, store, .ok v)
        ∧ ea - now ≥ TOKEN_REFRESH_BUFFER_SECONDS)
    ∧ (now ≥ ea - TOKEN_REFRESH_BUFFER_SECONDS →
      ∀ body rt v2 e,
        resp = .ok body → writeOk = true →
        dictGet? d "access_token" = some v2 →
        dictGet? d "refresh_token" = some rt →
        dictContains body "access_token" = true →
        dictGetD (if dictContains body "refresh_token" then body
          else dictSet body "refresh_token" rt) "expires_in" (.num 3600)
          = .num e →
        e ≥ TOKEN_REFRESH_BUFFER_SECONDS →
        ∃ d2 v3, get_valid_access_token st store now resp writeOk
            = ({ st with token_data := some d2 },
               .content (jsonSerialize d2), .ok v3)
          ∧ dictGet? d2 "expires_at" = some (.num (now + e))
          ∧ (now + e) - now ≥ TOKEN_REFRESH_BUFFER_SECONDS) := by
  constructor
  · intro hfresh v hak
    refine ⟨get_valid_fresh_eq st store now resp writeOk d ea v hd hak hea hfresh, ?_⟩
    omega
  · intro hstale body rt v2 e hresp hw hak hrt hbak he hge
    subst hresp
    subst hw
    have hrw := refresh_ok_eq st store now body true d rt e hd hrt he
    have hgv := get_valid_stale_eq st store now (.ok body) true d ea hd
      (dictContains_true_of_dictGet?_some d _ _ hak) hea hstale
    rw [hrw] at hgv
    set body2 := (if dictContains body "refresh_token" then body
      else dictSet body "refresh_token" rt) with hbody2
    have hbak2 : dictContains body2 "access_token" = true := by
      rw [hbody2]
      by_cases hb : dictContains body "refresh_token"
      · simp only [hb, if_true]
        exact hbak
      · simp only [hb, Bool.false_eq_true, if_false]
        rw [dictContains_dictSet_ne body _ _ rt (by decide)]
        exact hbak
    obtain ⟨av, hav⟩ := Option.isSome_iff_exists.mp hbak2
    have hav2 : dictGet? (dictSet body2 "expires_at" (.num (now + e)))
        "access_token" = some av := by
      rw [dictGet?_dictSet_ne body2 _ _ _ (by decide)]
      exact hav
    refine ⟨dictSet body2 "expires_at" (.num (now + e)), av, ?_, ?_, by omega⟩
    · rw [hgv]
      simp only [saveTokens, if_true]
      rw [hav2]
    · exact dictGet?_dictSet_self body2 "expires_at" (.num (now + e))

theorem saveTokens_fst (st : ManagerState) (store : StoreFile)
    (td : TokenData) (writeOk : Bool) :
    (saveTokens st store td writeOk).1 = { st with token_data := some td } := by
  unfold saveTokens
  cases writeOk <;> simp

/-- Claim C1, witness: the amended freshness theorem applied at a
concrete stale state refreshed with `expires_in = 3600`. -/
theorem c1_freshness_witness :
    ∃ d2 v3, get_valid_access_token
        { creds := demoCreds
          token_data := some [("access_token", JValue.str "A1"),
            ("refresh_token", JValue.str "R1"), ("expires_at", JValue.num 1000)] }
        .absent 1000
        (.ok [("access_token", JValue.str "A2"),
          ("refresh_token", JValue.str "R2"), ("expires_in", JValue.num 3600)])
        true
        = ({ creds := demoCreds, token_data := some d2 },
           .content (jsonSerialize d2), .ok v3)
      ∧ dictGet? d2 "expires_at" = some (.num (1000 + 3600))
      ∧ ((1000 : Int) + 3600) - 1000 ≥ TOKEN_REFRESH_BUFFER_SECONDS := by
  have h := (c1_freshness_amended
    { creds := demoCreds
      token_data := some [("access_token", JValue.str "A1"),
        ("refresh_token", JValue.str "R1"), ("expires_at", JValue.num 1000)] }
    .absent 1000 1000
    (.ok [("access_token", JValue.str "A2"),
      ("refresh_token", JValue.str "R2"), ("expires_in", JValue.num 3600)])
    true _ rfl rfl).2 (by decide)
    [("access_token", JValue.str "A2"), ("refresh_token", JValue.str "R2"),
      ("expires_in", JValue.num 3600)]
    (.str "R1") (.str "A1") 3600 rfl rfl rfl rfl rfl (by decide) (by decide)
  exact h

/-- Claim C2 (confirmed): a successful refresh whose response lacks a
`refresh_token` field keeps the previously stored `"R1"` both in the
in-memory record and in the persisted store text (which parses back to
the same record).  The `printableData` hypothesis marks the modelled
domain of the serializer (printable-ASCII strings, as produced by
`json.dump` without escape sequences beyond quote and backslash). -/
theorem c2_refresh_token_retention (st : ManagerState) (store : StoreFile)
    (now e : Int) (d body : TokenData)
    (hd : st.token_data = some d)
    (hrt : dictGet? d "refresh_token" = some (.str "R1"))
    (hnort : dictContains body "refresh_token" = false)
    (he : dictGetD body "expires_in" (.num 3600) = .num e)
    (_hpr : printableData body = true) :
    ∃ td, refresh_access_token st store now (.ok body) true
        = ({ st with token_data := some td },
           .content (jsonSerialize td), .ok td)
      ∧ dictGet? td "refresh_token" = some (.str "R1")
      ∧ loadTokens (.content (jsonSerialize td)) = some td := by
  have he2 : dictGetD (if dictContains body "refresh_token" then body
      else dictSet body "refresh_token" (.str "R1")) "expires_in" (.num 3600)
      = .num e := by
    simp only [hnort, Bool.false_eq_true, if_false]
    rw [dictGetD_dictSet_ne body _ _ _ _ (by decide)]
    exact he
  have hr := refresh_ok_eq st store now body true d (.str "R1") e hd hrt he2
  simp only [hnort, Bool.false_eq_true, if_false] at hr
  refine ⟨dictSet (dictSet body "refresh_token" (.str "R1")) "expires_at"
    (.num (now + e)), ?_, ?_, jsonParse_jsonSerialize _⟩
  · rw [hr]
    simp only [saveTokens, if_true]
  · rw [dictGet?_dictSet_ne _ _ _ _ (by decide), dictGet?_dictSet_self]

/-- Claim C2, witness: retention at a concrete record and response. -/
theorem c2_retention_witness :
    ∃ td, refresh_access_token
        { creds := demoCreds
          token_data := some [("access_token", JValue.str "A1"),
            ("refresh_token", JValue.str "R1"), ("expires_at", JValue.num 0)] }
        .absent 5000
        (.ok [("access_token", JValue.str "A2"), ("expires_in", JValue.num 3600)])
        true
        = ({ creds := demoCreds, token_data := some td },
           .content (jsonSerialize td), .ok td)
      ∧ dictGet? td "refresh_token" = some (.str "R1")
      ∧ loadTokens (.content (jsonSerialize td)) = some td := by
  have h := c2_refresh_token_retention
    { creds := demoCreds
      token_data := some [("access_token", JValue.str "A1"),
        ("refresh_token", JValue.str "R1"), ("expires_at", JValue.num 0)] }
    .absent 5000 3600
    [("access_token", JValue.str "A1"), ("refresh_token", JValue.str "R1"),
      ("expires_at", JValue.num 0)]
    [("access_token", JValue.str "A2"), ("expires_in", JValue.num 3600)]
    rfl rfl rfl rfl (by decide)
  exact h

/-- Claim C3 (confirmed): a successful code exchange or refresh stamps
`expires_at = now + expires_in` from the receipt-time clock (never from
the prior record), and two refreshes of the same response body at
different receipt times record different `expires_at` values. -/
theorem c3_expires_at_from_receipt (st : ManagerState) (store : StoreFile)
    (code : String) (now1 now2 e : Int) (writeOk : Bool) (d body : TokenData)
    (rt : JValue)
    (hd : st.token_data = some d)
    (hrt : dictGet? d "refresh_token" = some rt)
    (he : dictGetD body "expires_in" (.num 3600) = .num e) :
    (exchange_code_for_tokens st store code now1 (.ok body) writeOk).1.token_data
      = some (dictSet body "expires_at" (.num (now1 + e)))
    ∧ (refresh_access_token st store now1 (.ok body) writeOk).1.token_data
      = some (dictSet (if dictContains body "refresh_token" then body
          else dictSet body "refresh_token" rt) "expires_at" (.num (now1 + e)))
    ∧ dictGet? (dictSet (if dictContains body "refresh_token" then body
        else dictSet body "refresh_token" rt) "expires_at" (.num (now1 + e)))
        "expires_at" = some (.num (now1 + e))
    ∧ (now1 ≠ now2 →
      dictGet? ((refresh_access_token st store now1 (.ok body) writeOk).1.token_data.getD [])
          "expires_at"
        ≠ dictGet? ((refresh_access_token st store now2 (.ok body) writeOk).1.token_data.getD [])
          "expires_at") := by
  have he2 : dictGetD (if dictContains body "refresh_token" then body
      else dictSet body "refresh_token" rt) "expires_in" (.num 3600)
      = .num e := by
    by_cases hb : dictContains body "refresh_token"
    · simp only [hb, if_true]
      exact he
    · simp only [hb, Bool.false_eq_true, if_false]
      rw [dictGetD_dictSet_ne body _ _ _ _ (by decide)]
      exact he
  have hx := exchange_ok_eq st store code now1 body writeOk e he
  have hr1 := refresh_ok_eq st store now1 body writeOk d rt e hd hrt he2
  have hr2 := refresh_ok_eq st store now2 body writeOk d rt e hd hrt he2
  refine ⟨?_, ?_, ?_, ?_⟩
  · rw [hx, saveTokens_fst]
  · rw [hr1, saveTokens_fst]
  · exact dictGet?_dictSet_self _ _ _
  · intro hne
    rw [hr1, hr2, saveTokens_fst, saveTokens_fst]
    simp only [Option.getD_some]
    rw [dictGet?_dictSet_self, dictGet?_dictSet_self]
    simp only [ne_eq, Option.some.injEq, JValue.num.injEq]
    omega

/-- Claim C3, witness: concrete exchange and refreshes at receipt
times 1000 and 2000 with a constant `expires_in` of 3600. -/
theorem c3_expires_at_witness :
    (exchange_code_for_tokens
        { creds := demoCreds
          token_data := some [("refresh_token", JValue.str "R1")] }
        .absent "authcode" 1000
        (.ok [("access_token", JValue.str "A2"), ("expires_in", JValue.num 3600)])
        true).1.token_data
      = some (dictSet [("access_token", JValue.str "A2"),
          ("expires_in", JValue.num 3600)] "expires_at" (.num (1000 + 3600)))
    ∧ ((1000 : Int) ≠ 2000 →
      dictGet? ((refresh_access_token
          { creds := demoCreds
            token_data := some [("refresh_token", JValue.str "R1")] }
          .absent 1000
          (.ok [("access_token", JValue.str "A2"),
            ("expires_in", JValue.num 3600)]) true).1.token_data.getD [])
          "expires_at"
        ≠ dictGet? ((refresh_access_token
            { creds := demoCreds
              token_data := some [("refresh_token", JValue.str "R1")] }
            .absent 2000
            (.ok [("access_token", JValue.str "A2"),
              ("expires_in", JValue.num 3600)]) true).1.token_data.getD [])
            "expires_at") := by
  have h := c3_expires_at_from_receipt
    { creds := demoCreds
      token_data := some [("refresh_token", JValue.str "R1")] }
    .absent "authcode" 1000 2000 3600 true
    [("refresh_token", JValue.str "R1")]
    [("access_token", JValue.str "A2"), ("expires_in", JValue.num 3600)]
    (JValue.str "R1") rfl rfl rfl
  exact ⟨h.1, h.2.2.2⟩

/-- Claim C4 (confirmed): when no record is present, or the record is
falsy or lacks an `access_token` key, `get_valid_access_token` fails
with the auth-required `RuntimeError` whose message embeds the
authorization URL (as built by `get_authorization_url`) and the
step-by-step instructions, state and store are untouched, and
`is_authenticated` reports `false`. -/
theorem c4_auth_required (st : ManagerState) (store : StoreFile) (now : Int)
    (resp : HttpResult) (writeOk : Bool)
    (h : ∀ d, st.token_data = some d →
      (d.isEmpty || !(dictContains d "access_token")) = true) :
    get_valid_access_token st store now resp writeOk
      = (st, store, .error (.authRequired (authRequiredMessage st.creds)))
    ∧ authRequiredMessage st.creds
      = "No access token available. Please run initial OAuth flow:\n1. Visit: "
        ++ get_authorization_url st.creds ++ authInstructions
    ∧ is_authenticated st store now resp writeOk = (st, store, .ok false) := by
  have hg : get_valid_access_token st store now resp writeOk
      = (st, store, .error (.authRequired (authRequiredMessage st.creds))) := by
    unfold get_valid_access_token
    cases htd : st.token_data with
    | none => simp only
    | some d =>
      simp only
      rw [h d htd]
      simp only [if_true]
  refine ⟨hg, rfl, ?_⟩
  unfold is_authenticated
  rw [hg]
  simp only [isRuntimeError, if_true]

/-- Claim C4, witness: a manager constructed over an absent store file
(missing-store bootstrap) has no record, fails with the auth-required
error carrying the URL, and is not authenticated. -/
theorem c4_auth_required_witness :
    get_valid_access_token
      (mkManager "abc" "xyz" "http://localhost:8080/oauth/callback"
        "ZohoCRM.modules.ALL" "https://accounts.zoho.com" .absent)
      .absent 0 .err true
      = ((mkManager "abc" "xyz" "http://localhost:8080/oauth/callback"
          "ZohoCRM.modules.ALL" "https://accounts.zoho.com" .absent),
         .absent,
         .error (.authRequired (authRequiredMessage
           (mkManager "abc" "xyz" "http://localhost:8080/oauth/callback"
             "ZohoCRM.modules.ALL" "https://accounts.zoho.com" .absent).creds)))
    ∧ authRequiredMessage
        (mkManager "abc" "xyz" "http://localhost:8080/oauth/callback"
          "ZohoCRM.modules.ALL" "https://accounts.zoho.com" .absent).creds
      = "No access token available. Please run initial OAuth flow:\n1. Visit: "
        ++ get_authorization_url
          (mkManager "abc" "xyz" "http://localhost:8080/oauth/callback"
            "ZohoCRM.modules.ALL" "https://accounts.zoho.com" .absent).creds
        ++ authInstructions
    ∧ is_authenticated
        (mkManager "abc" "xyz" "http://localhost:8080/oauth/callback"
          "ZohoCRM.modules.ALL" "https://accounts.zoho.com" .absent)
        .absent 0 .err true
      = ((mkManager "abc" "xyz" "http://localhost:8080/oauth/callback"
          "ZohoCRM.modules.ALL" "https://accounts.zoho.com" .absent),
         .absent, .ok false) := by
  have h := c4_auth_required
    (mkManager "abc" "xyz" "http://localhost:8080/oauth/callback"
      "ZohoCRM.modules.ALL" "https://accounts.zoho.com" .absent)
    .absent 0 .err true
    (fun d hd => by simp [mkManager, loadTokens] at hd)
  exact h

/-- Claim C5, counterexample: in a stale authenticated state, a refresh
succeeds on the wire but the durable write fails (`writeOk = false`);
`get_valid_access_token` fails with the save failure (a
`RuntimeError` in the source), yet `is_authenticated` reports
`.ok false` instead of propagating it — contradicting the claim that
only the two authentication-state failures are swallowed. -/
theorem c5_counterexample :
    (get_valid_access_token
      { creds := demoCreds
        token_data := some [("access_token", JValue.str "A1"),
          ("refresh_token", JValue.str "R1"), ("expires_at", JValue.num 0)] }
      .absent 1000
      (.ok [("access_token", JValue.str "A2"),
        ("refresh_token", JValue.str "R2"), ("expires_in", JValue.num 3600)])
      false).2.2 = .error .saveFailed
    ∧ (is_authenticated
        { creds := demoCreds
          token_data := some [("access_token", JValue.str "A1"),
            ("refresh_token", JValue.str "R1"), ("expires_at", JValue.num 0)] }
        .absent 1000
        (.ok [("access_token", JValue.str "A2"),
          ("refresh_token", JValue.str "R2"), ("expires_in", JValue.num 3600)])
        false).2.2 = .ok false :=
  ⟨rfl, rfl⟩

/-- Claim C5 (amended): `is_authenticated` swallows exactly the
`RuntimeError`-class failures — the two authentication-state failures
AND the persistence (save) failure — collapsing them to `false`;
non-`RuntimeError` failures, such as an `httpx` transport failure
during the nested refresh, propagate.  Shown on the stale-record
family: a transport failure propagates as `.error .httpError`, while a
save failure after a successful wire refresh yields `.ok false` with
the in-memory record already replaced. -/
theorem c5_is_authenticated_amended (st : ManagerState) (store : StoreFile)
    (now ea e : Int) (writeOk : Bool) (d body : TokenData) (rt v : JValue)
    (hd : st.token_data = some d)
    (hak : dictGet? d "access_token" = some v)
    (hrt : dictGet? d "refresh_token" = some rt)
    (hea : dictGetD d "expires_at" (.num 0) = .num ea)
    (hstale : now ≥ ea - TOKEN_REFRESH_BUFFER_SECONDS)
    (he : dictGetD (if dictContains body "refresh_token" then body
      else dictSet body "refresh_token" rt) "expires_in" (.num 3600) = .num e) :
    is_authenticated st store now .err writeOk = (st, store, .error .httpError)
    ∧ (is_authenticated st store now (.ok body) false).1.token_data
      = some (dictSet (if dictContains body "refresh_token" then body
          else dictSet body "refresh_token" rt) "expires_at" (.num (now + e)))
    ∧ (is_authenticated st store now (.ok body) false).2.1 = store
    ∧ (is_authenticated st store now (.ok body) false).2.2 = .ok false := by
  have hakc := dictContains_true_of_dictGet?_some d _ _ hak
  have hg2 := get_valid_stale_eq st store now (.ok body) false d ea hd hakc hea hstale
  rw [refresh_ok_eq st store now body false d rt e hd hrt he] at hg2
  simp only [saveTokens, Bool.false_eq_true, if_false] at hg2
  refine ⟨?_, ?_, ?_, ?_⟩
  · have hg := get_valid_stale_eq st store now .err writeOk d ea hd hakc hea hstale
    rw [refresh_err_eq st store now writeOk d rt hd hrt] at hg
    unfold is_authenticated
    rw [hg]
    simp only [isRuntimeError, Bool.false_eq_true, if_false]
  · unfold is_authenticated
    rw [hg2]
    simp only [isRuntimeError, if_true]
  · unfold is_authenticated
    rw [hg2]
    simp only [isRuntimeError, if_true]
  · unfold is_authenticated
    rw [hg2]
    simp only [isRuntimeError, if_true]

/-- Claim C5, witness: the amended theorem at a concrete stale state. -/
theorem c5_is_authenticated_witness :
    is_authenticated
      { creds := demoCreds
        token_data := some [("access_token", JValue.str "A1"),
          ("refresh_token", JValue.str "R1"), ("expires_at", JValue.num 0)] }
      .absent 1000 .err true
      = ({ creds := demoCreds
           token_data := some [("access_token", JValue.str "A1"),
             ("refresh_token", JValue.str "R1"), ("expires_at", JValue.num 0)] },
         .absent, .error .httpError)
    ∧ (is_authenticated
        { creds := demoCreds
          token_data := some [("access_token", JValue.str "A1"),
            ("refresh_token", JValue.str "R1"), ("expires_at", JValue.num 0)] }
        .absent 1000
        (.ok [("access_token", JValue.str "A2"),
          ("refresh_token", JValue.str "R2"), ("expires_in", JValue.num 3600)])
        false).1.token_data
      = some (dictSet [("access_token", JValue.str "A2"),
          ("refresh_token", JValue.str "R2"),
          ("expires_in", JValue.num 3600)] "expires_at" (.num (1000 + 3600)))
    ∧ (is_authenticated
        { creds := demoCreds
          token_data := some [("access_token", JValue.str "A1"),
            ("refresh_token", JValue.str "R1"), ("expires_at", JValue.num 0)] }
        .absent 1000
        (.ok [("access_token", JValue.str "A2"),
          ("refresh_token", JValue.str "R2"), ("expires_in", JValue.num 3600)])
        false).2.2 = .ok false := by
  have h := c5_is_authenticated_amended
    { creds := demoCreds
      token_data := some [("access_token", JValue.str "A1"),
        ("refresh_token", JValue.str "R1"), ("expires_at", JValue.num 0)] }
    .absent 1000 0 3600 true
    [("access_token", JValue.str "A1"), ("refresh_token", JValue.str "R1"),
      ("expires_at", JValue.num 0)]
    [("access_token", JValue.str "A2"), ("refresh_token", JValue.str "R2"),
      ("expires_in", JValue.num 3600)]
    (JValue.str "R1") (JValue.str "A1")
    rfl rfl rfl rfl (by decide) (by decide)
  exact ⟨h.1, h.2.1, h.2.2.2⟩

/-- Claim C6, counterexample: a record whose `refresh_token` is the
EMPTY string is not rejected — the key is present, so the source
proceeds to the network call; with a transport failure the result is
the `httpx` error, not the missing-refresh-token `RuntimeError` the
claim requires for an empty refresh token. -/
theorem c6_counterexample :
    (refresh_access_token
      { creds := demoCreds
        token_data := some [("refresh_token", JValue.str "")] }
      .absent 0 .err true).2.2 = .error .httpError
    ∧ TMError.httpError ≠ .missingRefresh missingRefreshMessage :=
  ⟨rfl, by decide⟩

/-- Claim C6 (amended): when no record is in memory, or the record is
falsy or lacks a `refresh_token` KEY (an empty-string value is not
rejected), `refresh_access_token` fails with the missing-refresh-token
`RuntimeError` instructing the caller to complete the initial flow,
leaving state and store untouched, for every network response and
write outcome (i.e. without any network call or write). -/
theorem c6_missing_refresh_amended (st : ManagerState) (store : StoreFile)
    (now : Int) (resp : HttpResult) (writeOk : Bool)
    (h : ∀ d, st.token_data = some d →
      (d.isEmpty || !(dictContains d "refresh_token")) = true) :
    refresh_access_token st store now resp writeOk
      = (st, store, .error (.missingRefresh missingRefreshMessage))
    ∧ missingRefreshMessage
      = "No refresh token available. Please run initial OAuth flow." := by
  refine ⟨?_, rfl⟩
  unfold refresh_access_token
  cases htd : st.token_data with
  | none => simp only
  | some d =>
    simp only
    rw [h d htd]
    simp only [if_true]

/-- Claim C6, witness: a record bearing only an access token is
rejected with the missing-refresh-token error, untouched state. -/
theorem c6_missing_refresh_witness :
    refresh_access_token
      { creds := demoCreds
        token_data := some [("access_token", JValue.str "A1")] }
      .absent 7 (.ok [("access_token", JValue.str "A2")]) true
      = ({ creds := demoCreds
           token_data := some [("access_token", JValue.str "A1")] },
         .absent, .error (.missingRefresh missingRefreshMessage))
    ∧ missingRefreshMessage
      = "No refresh token available. Please run initial OAuth flow." := by
  have h := c6_missing_refresh_amended
    { creds := demoCreds
      token_data := some [("access_token", JValue.str "A1")] }
    .absent 7 (.ok [("access_token", JValue.str "A2")]) true
    (fun d hd => by
      simp only [Option.some.injEq] at hd
      subst hd
      decide)
  exact h

/-- Claim C7 (confirmed): construction over a store file whose content
fails to parse (including invalid JSON) yields a manager state
identical to construction over an absent store — the in-memory record
is absent; construction never fails (the model is total, as the source
catches the decode error and only warns). -/
theorem c7_corrupt_store_resilience (ci cs ru sc acct s : String)
    (h : jsonParse s = none) :
    mkManager ci cs ru sc acct (.content s) = mkManager ci cs ru sc acct .absent
    ∧ (mkManager ci cs ru sc acct (.content s)).token_data = none := by
  unfold mkManager loadTokens
  simp only
  rw [h]
  exact ⟨rfl, rfl⟩

/-- Claim C7, witness: the literal text `garbage` is not valid JSON and
loads identically to a missing store. -/
theorem c7_corrupt_store_witness :
    mkManager "abc" "xyz" "http://localhost:8080/oauth/callback"
        "ZohoCRM.modules.ALL" "https://accounts.zoho.com" (.content "garbage")
      = mkManager "abc" "xyz" "http://localhost:8080/oauth/callback"
        "ZohoCRM.modules.ALL" "https://accounts.zoho.com" .absent
    ∧ (mkManager "abc" "xyz" "http://localhost:8080/oauth/callback"
        "ZohoCRM.modules.ALL" "https://accounts.zoho.com"
        (.content "garbage")).token_data = none :=
  c7_corrupt_store_resilience "abc" "xyz" "http://localhost:8080/oauth/callback"
    "ZohoCRM.modules.ALL" "https://accounts.zoho.com" "garbage" rfl

/-- Claim C8 (confirmed): persisting a record and constructing a fresh
manager over the resulting store text reproduces the record exactly —
the `json.dump(indent=2)` / `json.load` round trip is lossless.  The
`printableData` hypothesis marks the modelled serializer domain
(printable-ASCII strings, including quotes and backslashes, which the
serializer escapes exactly as `json.dump` does). -/
theorem c8_idempotent_reload (ci cs ru sc acct : String) (d : TokenData)
    (_hp : printableData d = true) :
    (mkManager ci cs ru sc acct (.content (jsonSerialize d))).token_data
      = some d := by
  unfold mkManager loadTokens
  simp only
  rw [jsonParse_jsonSerialize]

/-- Claim C8, witness: a concrete record exercising quote and
backslash escaping plus negative and positive integers reloads
identically. -/
theorem c8_idempotent_reload_witness :
    (mkManager "abc" "xyz" "http://localhost:8080/oauth/callback"
        "ZohoCRM.modules.ALL" "https://accounts.zoho.com"
        (.content (jsonSerialize
          [("access_token", JValue.str "A\"1"),
           ("refresh_token", JValue.str "R\\1"),
           ("expires_in", JValue.num 3600),
           ("expires_at", JValue.num 1700000000),
           ("token_type", JValue.str "Bearer"),
           ("delta", JValue.num (-42))]))).token_data
      = some [("access_token", JValue.str "A\"1"),
           ("refresh_token", JValue.str "R\\1"),
           ("expires_in", JValue.num 3600),
           ("expires_at", JValue.num 1700000000),
           ("token_type", JValue.str "Bearer"),
           ("delta", JValue.num (-42))] :=
  c8_idempotent_reload "abc" "xyz" "http://localhost:8080/oauth/callback"
    "ZohoCRM.modules.ALL" "https://accounts.zoho.com" _ (by decide)

/-- Claim C9 (confirmed): when the durable write fails after a
successful exchange or refresh, the operation fails with the save
failure (`RuntimeError` in the source, `PersistenceError` in the
spec), the store is untouched, yet the in-memory record has already
been replaced by the new one, whose `access_token` is the one from the
response — usable within the current process. -/
theorem c9_persistence_failure_keeps_memory (st : ManagerState)
    (store : StoreFile) (code : String) (now e : Int) (d body : TokenData)
    (rt av : JValue)
    (hd : st.token_data = some d)
    (hrt : dictGet? d "refresh_token" = some rt)
    (he : dictGetD body "expires_in" (.num 3600) = .num e)
    (hav : dictGet? body "access_token" = some av) :
    (exchange_code_for_tokens st store code now (.ok body) false
        = ({ st with token_data
              := some (dictSet body "expires_at" (.num (now + e))) },
           store, .error .saveFailed)
      ∧ dictGet? (dictSet body "expires_at" (.num (now + e))) "access_token"
        = some av)
    ∧ (refresh_access_token st store now (.ok body) false
        = ({ st with token_data
              := some (dictSet (if dictContains body "refresh_token" then body
                  else dictSet body "refresh_token" rt) "expires_at"
                  (.num (now + e))) },
           store, .error .saveFailed)
      ∧ dictGet? (dictSet (if dictContains body "refresh_token" then body
            else dictSet body "refresh_token" rt) "expires_at" (.num (now + e)))
          "access_token" = some av) := by
  have he2 : dictGetD (if dictContains body "refresh_token" then body
      else dictSet body "refresh_token" rt) "expires_in" (.num 3600)
      = .num e := by
    by_cases hb : dictContains body "refresh_token"
    · simp only [hb, if_true]
      exact he
    · simp only [hb, Bool.false_eq_true, if_false]
      rw [dictGetD_dictSet_ne body _ _ _ _ (by decide)]
      exact he
  have hav2 : dictGet? (if dictContains body "refresh_token" then body
      else dictSet body "refresh_token" rt) "access_token" = some av := by
    by_cases hb : dictContains body "refresh_token"
    · simp only [hb, if_true]
      exact hav
    · simp only [hb, Bool.false_eq_true, if_false]
      rw [dictGet?_dictSet_ne body _ _ _ (by decide)]
      exact hav
  refine ⟨⟨?_, ?_⟩, ⟨?_, ?_⟩⟩
  · rw [exchange_ok_eq st store code now body false e he]
    simp only [saveTokens, Bool.false_eq_true, if_false]
  · rw [dictGet?_dictSet_ne _ _ _ _ (by decide)]
    exact hav
  · rw [refresh_ok_eq st store now body false d rt e hd hrt he2]
    simp only [saveTokens, Bool.false_eq_true, if_false]
  · rw [dictGet?_dictSet_ne _ _ _ _ (by decide)]
    exact hav2

/-- Claim C9, witness: a concrete failed write keeps the refreshed
record (and its new access token) in memory while the store stays
absent and the operation fails with the save failure. -/
theorem c9_persistence_failure_witness :
    refresh_access_token
        { creds := demoCreds
          token_data := some [("refresh_token", JValue.str "R1")] }
        .absent 1000
        (.ok [("access_token", JValue.str "A2"), ("expires_in", JValue.num 60)])
        false
      = ({ creds := demoCreds
           token_data := some (dictSet (if dictContains
               [("access_token", JValue.str "A2"),
                ("expires_in", JValue.num 60)] "refresh_token"
               then [("access_token", JValue.str "A2"),
                 ("expires_in", JValue.num 60)]
               else dictSet [("access_token", JValue.str "A2"),
                 ("expires_in", JValue.num 60)] "refresh_token"
                 (JValue.str "R1")) "expires_at" (.num (1000 + 60))) },
         .absent, .error .saveFailed)
    ∧ dictGet? (dictSet (if dictContains [("access_token", JValue.str "A2"),
          ("expires_in", JValue.num 60)] "refresh_token"
          then [("access_token", JValue.str "A2"), ("expires_in", JValue.num 60)]
          else dictSet [("access_token", JValue.str "A2"),
            ("expires_in", JValue.num 60)] "refresh_token" (JValue.str "R1"))
          "expires_at" (.num (1000 + 60))) "access_token"
      = some (JValue.str "A2") :=
  (c9_persistence_failure_keeps_memory
    { creds := demoCreds
      token_data := some [("refresh_token", JValue.str "R1")] }
    .absent "authcode" 1000 60
    [("refresh_token", JValue.str "R1")]
    [("access_token", JValue.str "A2"), ("expires_in", JValue.num 60)]
    (JValue.str "R1") (JValue.str "A2")
    rfl rfl rfl rfl).2

/-- Claim C10 (confirmed): a successful exchange or refresh whose
response body has no `expires_in` key does not fail: the code's
`.get("expires_in", 3600)` default applies and `expires_at` is stamped
as `now + 3600`. -/
theorem c10_default_expires_in (st : ManagerState) (store : StoreFile)
    (code : String) (now : Int) (d body : TokenData) (rt : JValue)
    (hd : st.token_data = some d)
    (hrt : dictGet? d "refresh_token" = some rt)
    (hno : dictContains body "expires_in" = false) :
    (∃ td, exchange_code_for_tokens st store code now (.ok body) true
        = ({ st with token_data := some td },
           .content (jsonSerialize td), .ok td)
      ∧ dictGet? td "expires_at" = some (.num (now + 3600)))
    ∧ (∃ td, refresh_access_token st store now (.ok body) true
        = ({ st with token_data := some td },
           .content (jsonSerialize td), .ok td)
      ∧ dictGet? td "expires_at" = some (.num (now + 3600))) := by
  have he : dictGetD body "expires_in" (.num 3600) = .num 3600 :=
    dictGetD_of_not_contains body _ _ hno
  have he2 : dictGetD (if dictContains body "refresh_token" then body
      else dictSet body "refresh_token" rt) "expires_in" (.num 3600)
      = .num 3600 := by
    by_cases hb : dictContains body "refresh_token"
    · simp only [hb, if_true]
      exact he
    · simp only [hb, Bool.false_eq_true, if_false]
      rw [dictGetD_dictSet_ne body _ _ _ _ (by decide)]
      exact he
  constructor
  · refine ⟨dictSet body "expires_at" (.num (now + 3600)), ?_, ?_⟩
    · rw [exchange_ok_eq st store code now body true 3600 he]
      simp only [saveTokens, if_true]
    · exact dictGet?_dictSet_self _ _ _
  · refine ⟨dictSet (if dictContains body "refresh_token" then body
      else dictSet body "refresh_token" rt) "expires_at"
      (.num (now + 3600)), ?_, ?_⟩
    · rw [refresh_ok_eq st store now body true d rt 3600 hd hrt he2]
      simp only [saveTokens, if_true]
    · exact dictGet?_dictSet_self _ _ _

/-- Claim C10, witness: concrete exchange and refresh of bodies
without `expires_in`, stamping `expires_at = 500 + 3600`. -/
theorem c10_default_expires_in_witness :
    (∃ td, exchange_code_for_tokens
        { creds := demoCreds
          token_data := some [("refresh_token", JValue.str "R1")] }
        .absent "authcode" 500
        (.ok [("access_token", JValue.str "A2")]) true
        = ({ creds := demoCreds, token_data := some td },
           .content (jsonSerialize td), .ok td)
      ∧ dictGet? td "expires_at" = some (.num (500 + 3600)))
    ∧ (∃ td, refresh_access_token
        { creds := demoCreds
          token_data := some [("refresh_token", JValue.str "R1")] }
        .absent 500
        (.ok [("access_token", JValue.str "A2")]) true
        = ({ creds := demoCreds, token_data := some td },
           .content (jsonSerialize td), .ok td)
      ∧ dictGet? td "expires_at" = some (.num (500 + 3600))) := by
  have h := c10_default_expires_in
    { creds := demoCreds
      token_data := some [("refresh_token", JValue.str "R1")] }
    .absent "authcode" 500
    [("refresh_token", JValue.str "R1")]
    [("access_token", JValue.str "A2")]
    (JValue.str "R1") rfl rfl rfl
  exact h
